import Mathlib

/-!
Shallow embedding of the `loopdestroyer` control-surface core:
`src/components/WeightKnob.ts` and `src/components/PromptDjMidi.ts`.

Modelling conventions:
* JavaScript numbers are modelled as exact rationals (`ℚ`); the arithmetic the
  claims exercise (addition, multiplication by fixed decimal constants,
  `Math.min`/`Math.max` clamping, JSON number round-trips) is exact in both
  worlds for the inputs at stake.
* Event dispatch (`dispatchEvent`) is modelled by returning the list of events
  a handler emits, appended to an event log where the component state carries
  one.
* Decimal literals such as `0.01` denote the corresponding rational.
-/

/-- Modelled from the spec: the `Prompt` record type comes from `src/types`
(not part of the analysed sources); the spec describes it as identifier
(string), text (string), weight (float in [0,2]), MIDI control-change channel
(integer), display color (string), and the code accesses exactly the fields
`promptId`, `text`, `weight`, `cc`, `color`. -/
structure Prompt where
  promptId : String
  text : String
  weight : ℚ
  cc : ℤ
  color : String
  deriving DecidableEq

/-! ## WeightKnob (`src/components/WeightKnob.ts`) -/

/-- Maps prompt weight to halo size (`MIN_HALO_SCALE`, WeightKnob.ts line 10). -/
def MIN_HALO_SCALE : ℚ := 1

/-- Maps prompt weight to halo size (`MAX_HALO_SCALE`, WeightKnob.ts line 11). -/
def MAX_HALO_SCALE : ℚ := 2

/-- The amount of scale to add to the halo based on audio level
(WeightKnob.ts line 14). -/
def HALO_LEVEL_MODIFIER : ℚ := 1

/-- The mutable fields of the `WeightKnob` element that the handlers touch:
`value`, `color`, `audioLevel` properties and the private drag state. -/
structure WeightKnob where
  value : ℚ
  color : String
  audioLevel : ℚ
  dragStartPos : ℚ
  dragStartValue : ℚ
  deriving DecidableEq

/-- Events dispatched by `WeightKnob`: the `input` CustomEvent carrying the new
value as its detail. -/
inductive KnobEvent where
  | input (detail : ℚ)
  deriving DecidableEq

/-- `handlePointerDown` (WeightKnob.ts lines 63-70): records the drag origin
and the value at drag start. Listener registration and `preventDefault` are
browser plumbing outside the state model. -/
def handlePointerDown (k : WeightKnob) (clientY : ℚ) : WeightKnob :=
  { k with dragStartPos := clientY, dragStartValue := k.value }

/-- `handlePointerMove` (WeightKnob.ts lines 72-77): recomputes the value from
the drag origin, clamps it to [0,2] via `Math.max(0, Math.min(2, v))`, and
dispatches an `input` event with the new value. -/
def handlePointerMove (k : WeightKnob) (clientY : ℚ) : WeightKnob × List KnobEvent :=
  let delta := k.dragStartPos - clientY
  let v1 := k.dragStartValue + delta * 0.01
  let v2 := max 0 (min 2 v1)
  ({ k with value := v2 }, [KnobEvent.input v2])

/-- `handleWheel` (WeightKnob.ts lines 85-90): `value + deltaY * -0.0025`,
clamped to [0,2], then an `input` event. -/
def handleWheel (k : WeightKnob) (deltaY : ℚ) : WeightKnob × List KnobEvent :=
  let v1 := k.value + deltaY * (-0.0025)
  let v2 := max 0 (min 2 v1)
  ({ k with value := v2 }, [KnobEvent.input v2])

/-- Assigning the `audioLevel` property (WeightKnob.ts line 51; written by the
host as `audioLevel=${this.audioLevel}`): a plain property write, it runs no
handler and dispatches no event. -/
def setAudioLevel (k : WeightKnob) (level : ℚ) : WeightKnob × List KnobEvent :=
  ({ k with audioLevel := level }, [])

/-- The halo scale computed in `render` (WeightKnob.ts lines 207-210):
`(value / 2) * (MAX - MIN)`, plus `MIN`, plus `audioLevel * MODIFIER`. -/
def haloScale (k : WeightKnob) : ℚ :=
  let s1 := (k.value / 2) * (MAX_HALO_SCALE - MIN_HALO_SCALE)
  let s2 := s1 + MIN_HALO_SCALE
  s2 + k.audioLevel * HALO_LEVEL_MODIFIER

/-- Folding a sequence of `pointermove` events (drag continuation) over the
knob, discarding the emitted events. -/
def applyMoves (k : WeightKnob) (ps : List ℚ) : WeightKnob :=
  ps.foldl (fun k p => (handlePointerMove k p).1) k

/-- The value shown after a sequence of moves. -/
def dragValue (k : WeightKnob) (ps : List ℚ) : ℚ :=
  (applyMoves k ps).value

theorem applyMoves_dragStart (k : WeightKnob) (ps : List ℚ) :
    (applyMoves k ps).dragStartPos = k.dragStartPos ∧
    (applyMoves k ps).dragStartValue = k.dragStartValue := by
  induction ps generalizing k with
  | nil => exact ⟨rfl, rfl⟩
  | cons p rest ih =>
    simpa [applyMoves, handlePointerMove] using ih { k with value := max 0 (min 2 (k.dragStartValue + (k.dragStartPos - p) * 0.01)) }

theorem applyMoves_append_single (k : WeightKnob) (ps : List ℚ) (p : ℚ) :
    applyMoves k (ps ++ [p]) = (handlePointerMove (applyMoves k ps) p).1 := by
  simp [applyMoves]

theorem dragValue_closed_form (k : WeightKnob) (ps : List ℚ) (p : ℚ) :
    dragValue k (ps ++ [p]) =
      max 0 (min 2 (k.dragStartValue + (k.dragStartPos - p) * 0.01)) := by
  have h := applyMoves_dragStart k ps
  simp [dragValue, applyMoves_append_single, handlePointerMove, h.1, h.2]

/-- C6: after `handlePointerDown` at coordinate `p0` with value `v0`, every
later `handlePointerMove` at coordinate `p` (regardless of the intervening
moves) sets the value to `clamp(v0 + (p0 - p) * 0.01, 0, 2)`; the value is
always within [0,2]; and the value is antitone in the pointer `clientY`
coordinate (dragging upward, i.e. to smaller y, increases it). -/
theorem continueDrag_formula_bounds_monotone (k : WeightKnob) (p0 : ℚ)
    (moves : List ℚ) (p p1 p2 : ℚ) (h12 : p1 ≤ p2) :
    dragValue (handlePointerDown k p0) (moves ++ [p]) =
      max 0 (min 2 (k.value + (p0 - p) * 0.01)) ∧
    0 ≤ dragValue (handlePointerDown k p0) (moves ++ [p]) ∧
    dragValue (handlePointerDown k p0) (moves ++ [p]) ≤ 2 ∧
    dragValue (handlePointerDown k p0) (moves ++ [p2]) ≤
      dragValue (handlePointerDown k p0) (moves ++ [p1]) := by
  have hform : ∀ q : ℚ, dragValue (handlePointerDown k p0) (moves ++ [q]) =
      max 0 (min 2 (k.value + (p0 - q) * 0.01)) := by
    intro q
    rw [dragValue_closed_form]
    simp [handlePointerDown]
  refine ⟨hform p, ?_, ?_, ?_⟩
  · rw [hform p]; exact le_max_left 0 _
  · rw [hform p]
    exact max_le (by norm_num) (min_le_left 2 _)
  · rw [hform p1, hform p2]
    have hbase : k.value + (p0 - p2) * 0.01 ≤ k.value + (p0 - p1) * 0.01 := by
      have : (p0 - p2) * 0.01 ≤ (p0 - p1) * 0.01 := by nlinarith
      linarith
    exact max_le_max le_rfl (min_le_min le_rfl hbase)

/-- Witness for C6: the spec's concrete scenario — a drag that started at
y=100 with value 0.3, moved to y=50, yields 0.8; and moving to y=60 yields at
most the value at y=50. -/
theorem continueDrag_formula_bounds_monotone_witness :
    dragValue (handlePointerDown ⟨0.3, "#f00", 0, 0, 0⟩ 100) [50] = 0.8 ∧
    dragValue (handlePointerDown ⟨0.3, "#f00", 0, 0, 0⟩ 100) [60] ≤
      dragValue (handlePointerDown ⟨0.3, "#f00", 0, 0, 0⟩ 100) [50] := by
  have h := continueDrag_formula_bounds_monotone ⟨0.3, "#f00", 0, 0, 0⟩ 100 [] 50 50 60 (by norm_num)
  refine ⟨?_, ?_⟩
  · have := h.1
    simpa using this.trans (by norm_num)
  · simpa using h.2.2.2

/-- A knob at weight 0, as in the C3 scenario. -/
def c3Knob : WeightKnob := ⟨0, "#000", 0, 0, 0⟩

/-- C3 counterexample: at weight 0 a wheel event with `deltaY = +120` does NOT
set the weight to 0.3 — the code computes `0 + 120 * (-0.0025) = -0.3`, which
clamps to 0. -/
theorem wheel_plus120_from_zero_not_point3 :
    (handleWheel c3Knob 120).1.value = 0 ∧
    (handleWheel c3Knob 120).1.value ≠ 0.3 := by
  constructor
  · simp [handleWheel, c3Knob]
    norm_num
  · simp [handleWheel, c3Knob]
    norm_num

/-- C3 (amended): at weight 0 a single wheel event with `deltaY = +120` leaves
the weight at `clamp(0 + 120 * (-0.0025), 0, 2) = 0` (a positive wheel delta
decreases the weight), while `deltaY = -120` sets it to 0.3. -/
theorem wheel_from_zero_amended :
    (handleWheel c3Knob 120).1.value = 0 ∧
    (handleWheel c3Knob (-120)).1.value = 0.3 := by
  constructor
  · simp [handleWheel, c3Knob]; norm_num
  · simp [handleWheel, c3Knob]; norm_num

/-- C9: the halo scale equals the linear interpolation
`MIN + (value/2) * (MAX - MIN) + audioLevel * MODIFIER` with the constants
1, 2, 1; and supplying an audio level is stored on the component but emits no
event and leaves the value untouched. -/
theorem haloScale_formula_and_audioLevel_silent (k : WeightKnob) (level : ℚ) :
    haloScale k =
      MIN_HALO_SCALE + (k.value / 2) * (MAX_HALO_SCALE - MIN_HALO_SCALE) +
        k.audioLevel * HALO_LEVEL_MODIFIER ∧
    MIN_HALO_SCALE = 1 ∧ MAX_HALO_SCALE = 2 ∧ HALO_LEVEL_MODIFIER = 1 ∧
    (setAudioLevel k level).2 = [] ∧
    (setAudioLevel k level).1.value = k.value ∧
    (setAudioLevel k level).1.audioLevel = level := by
  refine ⟨?_, rfl, rfl, rfl, rfl, rfl, rfl⟩
  simp [haloScale]
  ring

/-! ## PromptDjMidi: object-identity model of `handlePromptChanged`
(`src/components/PromptDjMidi.ts` lines 168-190)

JavaScript `Map` values are object references; `handlePromptChanged` mutates
the looked-up `Prompt` object in place (`prompt.text = text; prompt.weight =
weight; prompt.cc = cc;`) and then builds `new Map(this.prompts)` — a fresh
`Map` object holding the SAME entry pairs (setting an existing key keeps its
position and here stores the same object reference). To express reference
identity we model a heap of `Prompt` objects addressed by `Ref`, the `Map` as
a list of (identifier, reference) pairs plus a `Nat` identity for the `Map`
object itself, and an allocation counter. -/

abbrev Ref := Nat

/-- Association-list lookup, the model of `Map.get` / property access. -/
def alookup {κ α : Type} [DecidableEq κ] : List (κ × α) → κ → Option α
  | [], _ => none
  | e :: rest, key => if e.1 = key then some e.2 else alookup rest key

/-- Read a `Prompt` object from the heap. -/
def heapGet (heap : List (Ref × Prompt)) (r : Ref) : Option Prompt :=
  alookup heap r

/-- In-place mutation of the object at `r` (the model of
`prompt.text = ...; prompt.weight = ...; prompt.cc = ...`). -/
def heapModify (heap : List (Ref × Prompt)) (r : Ref) (f : Prompt → Prompt) :
    List (Ref × Prompt) :=
  heap.map (fun e => if e.1 = r then (e.1, f e.2) else e)

/-- The detail of the `prompt-changed` CustomEvent: `handlePromptChanged`
destructures exactly `promptId`, `text`, `weight` and `cc` from it
(PromptDjMidi.ts line 169). -/
structure PromptEdit where
  promptId : String
  text : String
  weight : ℚ
  cc : ℤ
  deriving DecidableEq

/-- State of `PromptDjMidi` relevant to `handlePromptChanged`: the heap of
`Prompt` objects, the current `Map` (entries plus the `Map` object's own
identity), an allocator for fresh object identities, and the log of
`prompts-changed` dispatches, each carrying the published `Map` (identity and
entries, since line 188 publishes `this.prompts` itself, not a copy). -/
structure DjRefState where
  heap : List (Ref × Prompt)
  promptRefs : List (String × Ref)
  mapRef : Nat
  nextRef : Nat
  published : List (Nat × List (String × Ref))
  deriving DecidableEq

/-- `handlePromptChanged` (PromptDjMidi.ts lines 168-190): on an unknown
identifier it logs and returns; otherwise it mutates the found `Prompt` object
in place, builds a fresh `Map` with the same entries (copying the old entries
and re-setting the same object under the same key keeps order and references),
swaps it in, and dispatches `prompts-changed` with the new `Map`. -/
def handlePromptChanged (s : DjRefState) (e : PromptEdit) : DjRefState :=
  match alookup s.promptRefs e.promptId with
  | none => s
  | some r =>
    let heap1 := heapModify s.heap r
      (fun p => { p with text := e.text, weight := e.weight, cc := e.cc })
    let newMapRef := s.nextRef
    { heap := heap1
      promptRefs := s.promptRefs
      mapRef := newMapRef
      nextRef := s.nextRef + 1
      published := s.published ++ [(newMapRef, s.promptRefs)] }

/-- Dereference a `Map`'s entries through a heap: the observable contents of a
collection value. -/
def derefAll (heap : List (Ref × Prompt)) (entries : List (String × Ref)) :
    List (String × Option Prompt) :=
  entries.map (fun e => (e.1, heapGet heap e.2))

/-- A one-prompt state used to exhibit the C1 aliasing. -/
def c1State : DjRefState :=
  { heap := [(0, ⟨"A", "old text", 1, 5, "#f00"⟩)]
    promptRefs := [("A", 0)]
    mapRef := 0
    nextRef := 1
    published := [] }

/-- The edit applied to `c1State`. -/
def c1Edit : PromptEdit := ⟨"A", "new text", 1/2, 6⟩

/-- C1 counterexample: after an edit to the known identifier "A", the
previously current collection no longer holds the values it held before the
edit — its reachable `Prompt` record was mutated in place. -/
theorem prior_collection_mutated_by_edit :
    derefAll (handlePromptChanged c1State c1Edit).heap c1State.promptRefs ≠
      derefAll c1State.heap c1State.promptRefs := by
  decide

theorem heapGet_heapModify (heap : List (Ref × Prompt)) (r : Ref)
    (f : Prompt → Prompt) :
    heapGet (heapModify heap r f) r = (heapGet heap r).map f := by
  induction heap with
  | nil => rfl
  | cons e rest ih =>
    by_cases h : e.1 = r
    · simp [heapGet, heapModify, alookup, h]
    · simpa [heapGet, heapModify, alookup, h] using ih

/-- C1 (amended): an edit to a known identifier swaps in a NEW `Map` object
(its identity differs from the previous collection's, so reference comparison
still detects the change) holding the very same entry pairs, and mutates the
edited `Prompt` record in place — so the previous collection aliases the new
one: dereferencing the old entries after the edit yields exactly the new
collection's contents (with the edit applied), not the pre-edit values. -/
theorem handlePromptChanged_new_map_aliases_records (s : DjRefState)
    (e : PromptEdit) (r : Ref)
    (hfind : alookup s.promptRefs e.promptId = some r)
    (hfresh : s.mapRef < s.nextRef) :
    (handlePromptChanged s e).mapRef ≠ s.mapRef ∧
    (handlePromptChanged s e).promptRefs = s.promptRefs ∧
    derefAll (handlePromptChanged s e).heap s.promptRefs =
      derefAll (handlePromptChanged s e).heap (handlePromptChanged s e).promptRefs ∧
    heapGet (handlePromptChanged s e).heap r =
      (heapGet s.heap r).map
        (fun p => { p with text := e.text, weight := e.weight, cc := e.cc }) ∧
    (handlePromptChanged s e).published =
      s.published ++ [((handlePromptChanged s e).mapRef, s.promptRefs)] := by
  refine ⟨?_, ?_, ?_, ?_, ?_⟩
  · simp only [handlePromptChanged, hfind]
    omega
  · simp [handlePromptChanged, hfind]
  · simp [handlePromptChanged, hfind]
  · simp only [handlePromptChanged, hfind]
    exact heapGet_heapModify s.heap r _
  · simp [handlePromptChanged, hfind]

/-- Witness for C1 (amended): the amended statement applied to the concrete
one-prompt state and edit. -/
theorem handlePromptChanged_new_map_aliases_records_witness :
    (handlePromptChanged c1State c1Edit).mapRef ≠ c1State.mapRef ∧
    (handlePromptChanged c1State c1Edit).promptRefs = c1State.promptRefs ∧
    derefAll (handlePromptChanged c1State c1Edit).heap c1State.promptRefs =
      derefAll (handlePromptChanged c1State c1Edit).heap
        (handlePromptChanged c1State c1Edit).promptRefs ∧
    heapGet (handlePromptChanged c1State c1Edit).heap 0 =
      (heapGet c1State.heap 0).map
        (fun p => { p with text := c1Edit.text, weight := c1Edit.weight, cc := c1Edit.cc }) ∧
    (handlePromptChanged c1State c1Edit).published =
      c1State.published ++
        [((handlePromptChanged c1State c1Edit).mapRef, c1State.promptRefs)] :=
  handlePromptChanged_new_map_aliases_records c1State c1Edit 0 (by decide) (by decide)

/-- C5: an edit whose identifier is absent from the current collection leaves
the whole state unchanged — in particular the current `Map` is the same object
(same identity, reference-equal) and nothing is published. -/
theorem handlePromptChanged_unknown_id_noop (s : DjRefState) (e : PromptEdit)
    (h : alookup s.promptRefs e.promptId = none) :
    handlePromptChanged s e = s := by
  simp [handlePromptChanged, h]

/-- Witness for C5: the edit for identifier "B", absent from the one-prompt
state, is a no-op. -/
theorem handlePromptChanged_unknown_id_noop_witness :
    handlePromptChanged c1State ⟨"B", "t", 1, 2⟩ = c1State :=
  handlePromptChanged_unknown_id_noop c1State ⟨"B", "t", 1, 2⟩ (by decide)

/-! ## PromptDjMidi: presets and storage
(`src/components/PromptDjMidi.ts` lines 253-312)

The preset logic treats whole `Prompt` records by value (saving serializes
them, loading builds fresh objects), so this part is modelled at value level:
`prompts` is the insertion-ordered entry list of the `Map`, `presets` the
insertion-ordered property list of the plain object. JSON strings are
abstracted by their parse result: `JSON.stringify` of a tree of objects,
arrays, strings and finite numbers yields a string that `JSON.parse` maps back
to an equal tree, so a serialized payload is represented by the tree itself
(`wellFormed`), and a string on which `JSON.parse` throws by `malformed`.
Integer-like property names (which JavaScript would iterate first) are outside
the modelled name space. -/

/-- JSON values as produced by `JSON.parse`. -/
inductive JsonV where
  | null
  | bool (b : Bool)
  | num (q : ℚ)
  | str (s : String)
  | arr (elems : List JsonV)
  | obj (fields : List (String × JsonV))

/-- A stored preset payload string, abstracted by its parse behaviour. -/
inductive PromptsPayload where
  | wellFormed (j : JsonV)
  | malformed

/-- The string stored under the `"prompt-dj-presets"` key, abstracted by its
parse behaviour; when it parses, it is the object mapping preset names to
payload strings that `handleSavePreset` writes. -/
inductive PresetsStore where
  | wellFormed (entries : List (String × PromptsPayload))
  | malformed

/-- JSON encoding of one `Prompt` record, field for field. -/
def encodeJsonPrompt (p : Prompt) : JsonV :=
  JsonV.obj
    [("promptId", JsonV.str p.promptId), ("text", JsonV.str p.text),
     ("weight", JsonV.num p.weight), ("cc", JsonV.num (p.cc : ℚ)),
     ("color", JsonV.str p.color)]

/-- JSON encoding of one `Map` entry, the `[identifier, record]` pair that
`Array.from(this.prompts.entries())` produces. -/
def encodeEntry (e : String × Prompt) : JsonV :=
  JsonV.arr [JsonV.str e.1, encodeJsonPrompt e.2]

/-- `JSON.stringify(Array.from(this.prompts.entries()))`
(PromptDjMidi.ts lines 273-274). -/
def encodePrompts (l : List (String × Prompt)) : PromptsPayload :=
  PromptsPayload.wellFormed (JsonV.arr (l.map encodeEntry))

def asStr : JsonV → Option String
  | JsonV.str s => some s
  | _ => none

def asNum : JsonV → Option ℚ
  | JsonV.num q => some q
  | _ => none

def asInt : JsonV → Option ℤ
  | JsonV.num q => if q.den = 1 then some q.num else none
  | _ => none

/-- Reading a parsed JSON value back as a `Prompt` record. The program itself
performs no shape validation beyond what `new Map(...)` enforces; values that
parse but do not have the shape the program's own serializer produces are
mapped to the failure case here. -/
def decodeJsonPrompt (j : JsonV) : Option Prompt :=
  match j with
  | JsonV.obj fields => do
    let pid ← (alookup fields "promptId").bind asStr
    let t ← (alookup fields "text").bind asStr
    let w ← (alookup fields "weight").bind asNum
    let c ← (alookup fields "cc").bind asInt
    let col ← (alookup fields "color").bind asStr
    pure ⟨pid, t, w, c, col⟩
  | _ => none

/-- One `[identifier, record]` entry of a parsed payload; `new Map` reads the
entry's indices 0 and 1 and ignores any extras. -/
def decodeEntry (j : JsonV) : Option (String × Prompt) :=
  match j with
  | JsonV.arr (k :: v :: _) =>
    match k, decodeJsonPrompt v with
    | JsonV.str s, some p => some (s, p)
    | _, _ => none
  | _ => none

def decodeEntries : List JsonV → Option (List (String × Prompt))
  | [] => some []
  | e :: es =>
    match decodeEntry e, decodeEntries es with
    | some x, some xs => some (x :: xs)
    | _, _ => none

/-- `JSON.parse(presetString)` followed by entry extraction
(PromptDjMidi.ts lines 285-287): fails when the string does not parse or when
`new Map(loadedPromptsArray)` would throw or the entries do not carry prompt
records. -/
def decodePrompts : PromptsPayload → Option (List (String × Prompt))
  | PromptsPayload.wellFormed (JsonV.arr es) => decodeEntries es
  | _ => none

/-- `Map.set` / object property assignment: an existing key keeps its position
and gets the new value, a fresh key is appended. -/
def mapSet {κ α : Type} [DecidableEq κ] : List (κ × α) → κ → α → List (κ × α)
  | [], k, v => [(k, v)]
  | e :: rest, k, v =>
    if e.1 = k then (k, v) :: rest else e :: mapSet rest k v

/-- `new Map(pairs)`: inserts the pairs left to right (first occurrence fixes
the position, the last value for a key wins). -/
def mapOfList {κ α : Type} [DecidableEq κ] (l : List (κ × α)) : List (κ × α) :=
  l.foldl (fun acc e => mapSet acc e.1 e.2) []

/-- `delete this.presets[name]`: removes the property, the other entries keep
their order. -/
def recordDelete {α : Type} : List (String × α) → String → List (String × α)
  | [], _ => []
  | e :: rest, k => if e.1 = k then rest else e :: recordDelete rest k

/-- `presetNames.length > 0 ? presetNames[0] : ''` — the first stored preset
name, or the empty string when none remain. -/
def firstPresetName {α : Type} (presets : List (String × α)) : String :=
  match presets with
  | [] => ""
  | e :: _ => e.1

/-- Events `PromptDjMidi` dispatches in the preset handlers: `prompts-changed`
with the full collection, and `error` with a message. -/
inductive DjEvent where
  | promptsChanged (detail : List (String × Prompt))
  | errorEvt (message : String)

/-- Value-level state of `PromptDjMidi` for the preset operations: the current
collection, the preset record, the selected preset name, the
`localStorage` slot for `"prompt-dj-presets"` (`none` = key absent), and the
log of dispatched events. -/
structure DjState where
  prompts : List (String × Prompt)
  presets : List (String × PromptsPayload)
  selectedPresetName : String
  storage : Option PresetsStore
  events : List DjEvent

/-- Outcome of the startup load: the fields `loadPresetsFromStorage` may set,
starting from `presets = {}`, `selectedPresetName = ''`. -/
structure StartupState where
  presets : List (String × PromptsPayload)
  selectedPresetName : String
  storage : Option PresetsStore

/-- `loadPresetsFromStorage` (PromptDjMidi.ts lines 253-267): an absent key
leaves everything empty; a parse failure is caught, logged, and the corrupt
value removed from storage; on success the presets are installed and, when
non-empty, the first stored name becomes the selection. -/
def loadPresetsFromStorage (storage : Option PresetsStore) : StartupState :=
  match storage with
  | none => { presets := [], selectedPresetName := "", storage := none }
  | some PresetsStore.malformed =>
    { presets := [], selectedPresetName := "", storage := none }
  | some (PresetsStore.wellFormed entries) =>
    { presets := entries
      selectedPresetName := firstPresetName entries
      storage := some (PresetsStore.wellFormed entries) }

/-- Model of `String.prototype.trim`: strip leading and trailing whitespace. -/
def jsTrim (s : String) : String :=
  ⟨((s.data.dropWhile Char.isWhitespace).reverse.dropWhile Char.isWhitespace).reverse⟩

/-- `handleSavePreset` (PromptDjMidi.ts lines 269-279): `prompt(...)` returned
`name`; a null or blank-after-trim name is a silent no-op; otherwise the
serialized collection is stored under the trimmed name, the name becomes the
selection, and the whole preset record is persisted. -/
def handleSavePreset (s : DjState) (name : Option String) : DjState :=
  match name with
  | none => s
  | some n =>
    if jsTrim n = "" then s
    else
      let trimmedName := jsTrim n
      let presets1 := mapSet s.presets trimmedName (encodePrompts s.prompts)
      { s with presets := presets1
               selectedPresetName := trimmedName
               storage := some (PresetsStore.wellFormed presets1) }

/-- `handleLoadPreset` (PromptDjMidi.ts lines 281-298): no selection or an
unknown selection is a silent no-op; a failing deserialization is caught and
surfaced as an `error` event with the collection untouched; on success the
collection is replaced by a `Map` built from the parsed pairs and
`prompts-changed` is dispatched with it. -/
def handleLoadPreset (s : DjState) : DjState :=
  if s.selectedPresetName = "" then s
  else
    match alookup s.presets s.selectedPresetName with
    | none => s
    | some payload =>
      match decodePrompts payload with
      | some loadedPromptsArray =>
        let newPrompts := mapOfList loadedPromptsArray
        { s with prompts := newPrompts
                 events := s.events ++ [DjEvent.promptsChanged newPrompts] }
      | none =>
        { s with events := s.events ++
            [DjEvent.errorEvt "Failed to load preset. It might be corrupted."] }

/-- `handleDeletePreset` (PromptDjMidi.ts lines 300-312): no selection or an
unknown selection is a no-op; then the user is asked to confirm; on
confirmation the selected preset is deleted, the first remaining name (or the
empty string) becomes the selection, and the preset record is persisted. -/
def handleDeletePreset (s : DjState) (confirmed : Bool) : DjState :=
  if s.selectedPresetName = "" then s
  else
    match alookup s.presets s.selectedPresetName with
    | none => s
    | some _ =>
      if confirmed then
        let presets1 := recordDelete s.presets s.selectedPresetName
        { s with presets := presets1
                 selectedPresetName := firstPresetName presets1
                 storage := some (PresetsStore.wellFormed presets1) }
      else s

theorem alookup_mapSet_self {κ α : Type} [DecidableEq κ]
    (m : List (κ × α)) (k : κ) (v : α) :
    alookup (mapSet m k v) k = some v := by
  induction m with
  | nil => simp [mapSet, alookup]
  | cons e rest ih =>
    by_cases h : e.1 = k
    · simp [mapSet, h, alookup]
    · simp [mapSet, h, alookup, ih]

theorem decodeJsonPrompt_encodeJsonPrompt (p : Prompt) :
    decodeJsonPrompt (encodeJsonPrompt p) = some p := by
  simp [decodeJsonPrompt, encodeJsonPrompt, alookup, asStr, asNum, asInt,
    Rat.den_intCast, Rat.num_intCast]

theorem decodeEntry_encodeEntry (e : String × Prompt) :
    decodeEntry (encodeEntry e) = some e := by
  simp [decodeEntry, encodeEntry, decodeJsonPrompt_encodeJsonPrompt]

theorem decodeEntries_encode (l : List (String × Prompt)) :
    decodeEntries (l.map encodeEntry) = some l := by
  induction l with
  | nil => rfl
  | cons e rest ih =>
    simp [decodeEntries, decodeEntry_encodeEntry, ih]

theorem decodePrompts_encodePrompts (l : List (String × Prompt)) :
    decodePrompts (encodePrompts l) = some l := by
  simp [decodePrompts, encodePrompts, decodeEntries_encode]

theorem mapSet_eq_append_of_not_mem {κ α : Type} [DecidableEq κ]
    (m : List (κ × α)) (k : κ) (v : α) (h : k ∉ m.map Prod.fst) :
    mapSet m k v = m ++ [(k, v)] := by
  induction m with
  | nil => rfl
  | cons e rest ih =>
    simp only [List.map_cons, List.mem_cons] at h
    push_neg at h
    simp [mapSet, Ne.symm h.1, ih h.2]

theorem foldl_mapSet_of_nodup {κ α : Type} [DecidableEq κ]
    (l : List (κ × α)) :
    ∀ m : List (κ × α), (m.map Prod.fst ++ l.map Prod.fst).Nodup →
      l.foldl (fun acc e => mapSet acc e.1 e.2) m = m ++ l := by
  induction l with
  | nil => intro m _; simp
  | cons e rest ih =>
    intro m h
    have hk : e.1 ∉ m.map Prod.fst := by
      intro hmem
      exact (List.disjoint_of_nodup_append h) hmem (by simp)
    have h2 : ((m ++ [(e.1, e.2)]).map Prod.fst ++ rest.map Prod.fst).Nodup := by
      simpa [List.append_assoc] using h
    rw [List.foldl_cons, mapSet_eq_append_of_not_mem m e.1 e.2 hk, ih _ h2]
    simp

theorem mapOfList_eq_self {κ α : Type} [DecidableEq κ]
    (l : List (κ × α)) (h : (l.map Prod.fst).Nodup) :
    mapOfList l = l := by
  have := foldl_mapSet_of_nodup l [] (by simpa using h)
  simpa [mapOfList] using this

/-- C2: saving the current collection under a non-blank name and then loading
that preset yields exactly the original collection — identical identifiers,
texts, weights, colors and channels, in the original insertion order. The
collection's identifiers are distinct, it being the entry list of a `Map`. -/
theorem savePreset_loadPreset_roundtrip (s : DjState) (name : String)
    (hname : jsTrim name ≠ "")
    (hnodup : (s.prompts.map Prod.fst).Nodup) :
    (handleLoadPreset (handleSavePreset s (some name))).prompts = s.prompts := by
  have h1 : handleSavePreset s (some name) =
      { s with
        presets := mapSet s.presets (jsTrim name) (encodePrompts s.prompts)
        selectedPresetName := jsTrim name
        storage := some (PresetsStore.wellFormed
          (mapSet s.presets (jsTrim name) (encodePrompts s.prompts))) } := by
    simp [handleSavePreset, hname]
  rw [h1]
  simp [handleLoadPreset, hname, alookup_mapSet_self, decodePrompts_encodePrompts,
    mapOfList_eq_self _ hnodup]

/-- Witness for C2: a concrete two-prompt collection round-trips through the
preset named " mix 1 " (stored under its trimmed name). -/
theorem savePreset_loadPreset_roundtrip_witness :
    (handleLoadPreset (handleSavePreset
      { prompts := [("A", ⟨"A", "bass", 0.3, 3, "#f00"⟩),
                    ("B", ⟨"B", "drums", 1.7, 4, "#0f0"⟩)]
        presets := []
        selectedPresetName := ""
        storage := none
        events := [] } (some " mix 1 "))).prompts =
      [("A", ⟨"A", "bass", 0.3, 3, "#f00"⟩), ("B", ⟨"B", "drums", 1.7, 4, "#0f0"⟩)] :=
  savePreset_loadPreset_roundtrip
    { prompts := [("A", ⟨"A", "bass", 0.3, 3, "#f00"⟩),
                  ("B", ⟨"B", "drums", 1.7, 4, "#0f0"⟩)]
      presets := []
      selectedPresetName := ""
      storage := none
      events := [] } " mix 1 " (by decide) (by decide)

/-- C4: when the selected preset's stored payload fails to deserialize,
`handleLoadPreset` leaves the collection (and everything else in the state)
unchanged and appends exactly one user-visible `error` event — it neither
replaces the collection nor escapes the handler. -/
theorem loadPreset_failure_preserves_state (s : DjState)
    (payload : PromptsPayload)
    (hsel : s.selectedPresetName ≠ "")
    (hfind : alookup s.presets s.selectedPresetName = some payload)
    (hfail : decodePrompts payload = none) :
    handleLoadPreset s =
      { s with events := s.events ++
          [DjEvent.errorEvt "Failed to load preset. It might be corrupted."] } := by
  simp [handleLoadPreset, hsel, hfind, hfail]

/-- A state whose selected preset is a corrupt payload. -/
def c4State : DjState :=
  { prompts := [("A", ⟨"A", "t", 1, 0, "#fff"⟩)]
    presets := [("broken", PromptsPayload.malformed)]
    selectedPresetName := "broken"
    storage := some (PresetsStore.wellFormed [("broken", PromptsPayload.malformed)])
    events := [] }

/-- Witness for C4: loading the corrupt preset "broken" keeps the state and
emits the error message. -/
theorem loadPreset_failure_preserves_state_witness :
    handleLoadPreset c4State =
      { c4State with events := c4State.events ++
          [DjEvent.errorEvt "Failed to load preset. It might be corrupted."] } :=
  loadPreset_failure_preserves_state c4State PromptsPayload.malformed
    (by decide) rfl rfl

theorem firstPresetName_eq_headD {α : Type} (l : List (String × α)) :
    firstPresetName l = (l.map Prod.fst).headD "" := by
  cases l <;> simp [firstPresetName]

/-- C7: deleting with an empty or unknown selection is a no-op; deleting the
currently selected, existing preset removes exactly it from the persisted set
and selects the first remaining preset in stored order — the empty selection
when it was the last one. -/
theorem deletePreset_selection (s : DjState) :
    ((s.selectedPresetName = "" ∨
        alookup s.presets s.selectedPresetName = none) →
      handleDeletePreset s true = s) ∧
    (∀ payload, s.selectedPresetName ≠ "" →
      alookup s.presets s.selectedPresetName = some payload →
      (handleDeletePreset s true).presets =
        recordDelete s.presets s.selectedPresetName ∧
      (handleDeletePreset s true).selectedPresetName =
        ((recordDelete s.presets s.selectedPresetName).map Prod.fst).headD "" ∧
      (handleDeletePreset s true).storage =
        some (PresetsStore.wellFormed
          (recordDelete s.presets s.selectedPresetName))) := by
  constructor
  · rintro (h | h)
    · simp [handleDeletePreset, h]
    · by_cases hsel : s.selectedPresetName = ""
      · simp [handleDeletePreset, hsel]
      · simp [handleDeletePreset, hsel, h]
  · intro payload hsel hfind
    refine ⟨?_, ?_, ?_⟩ <;>
      simp [handleDeletePreset, hsel, hfind, firstPresetName_eq_headD]

/-- A state with two stored presets, the first one selected. -/
def c7State : DjState :=
  { prompts := []
    presets := [("p1", PromptsPayload.malformed), ("p2", PromptsPayload.malformed)]
    selectedPresetName := "p1"
    storage := some (PresetsStore.wellFormed
      [("p1", PromptsPayload.malformed), ("p2", PromptsPayload.malformed)])
    events := [] }

/-- The same store with a selection naming no stored preset. -/
def c7UnknownState : DjState :=
  { c7State with selectedPresetName := "zzz" }

/-- Witness for C7: deleting with the unknown selection "zzz" is a no-op, and
deleting the selected "p1" of two presets removes it and selects the first
remaining preset, "p2". -/
theorem deletePreset_selection_witness :
    handleDeletePreset c7UnknownState true = c7UnknownState ∧
    (handleDeletePreset c7State true).presets =
      recordDelete c7State.presets c7State.selectedPresetName ∧
    (handleDeletePreset c7State true).selectedPresetName =
      ((recordDelete c7State.presets c7State.selectedPresetName).map Prod.fst).headD "" ∧
    (handleDeletePreset c7State true).selectedPresetName = "p2" :=
  ⟨(deletePreset_selection c7UnknownState).1 (Or.inr rfl),
   ((deletePreset_selection c7State).2 PromptsPayload.malformed (by decide) rfl).1,
   ((deletePreset_selection c7State).2 PromptsPayload.malformed (by decide) rfl).2.1,
   rfl⟩

/-- C8: a corrupt value stored under `"prompt-dj-presets"` is treated exactly
like an absent one — the in-memory preset set stays empty, no selection is
made, the corrupt value is cleared from the store, and the startup load
returns normally. -/
theorem corrupt_presets_treated_as_absent :
    loadPresetsFromStorage (some PresetsStore.malformed) =
      { presets := [], selectedPresetName := "", storage := none } ∧
    loadPresetsFromStorage (some PresetsStore.malformed) =
      loadPresetsFromStorage none :=
  ⟨rfl, rfl⟩

/-- C10: when the stored preset record parses and is non-empty, the selection
is initialized to the first stored name and the presets are installed
unchanged; when the key is absent or its value corrupt, the selection (and the
preset set) stays empty. -/
theorem startup_selection (e : String × PromptsPayload)
    (rest : List (String × PromptsPayload)) :
    (loadPresetsFromStorage
        (some (PresetsStore.wellFormed (e :: rest)))).selectedPresetName = e.1 ∧
    (loadPresetsFromStorage
        (some (PresetsStore.wellFormed (e :: rest)))).presets = e :: rest ∧
    (loadPresetsFromStorage none).selectedPresetName = "" ∧
    (loadPresetsFromStorage none).presets = [] ∧
    (loadPresetsFromStorage (some PresetsStore.malformed)).selectedPresetName = "" ∧
    (loadPresetsFromStorage (some PresetsStore.malformed)).presets = [] :=
  ⟨rfl, rfl, rfl, rfl, rfl, rfl⟩
